import Mathlib

/-!
Verification of the event-management server against its design document.

The embedding models the Express/Mongoose routes:
  * POST /api/rsvp/:eventId    (tryReserve)  — src/unnamed/part_000
  * DELETE /api/rsvp/:eventId  (cancel)      — src/unnamed/part_000
  * GET /api/events            (listing)     — src/server/routes/events.js
  * POST /api/events           (create)      — src/server/routes/events.js
  * PUT /api/events/:id        (update)      — src/server/routes/events.js

Timestamps are integers (milliseconds since the epoch, as JS Date.getTime()).
User ids are natural numbers standing for opaque ObjectIds.
The attendees array is a `List Nat`, in stored order.
-/

namespace EventApp

/-- The Event document (models/Event): title, description, date, location,
capacity, attendees, creator, createdAt, rsvpOpenAt (optional, absent on
legacy records), image. -/
structure Event where
  title : String
  description : String
  date : Int
  location : String
  capacity : Nat
  attendees : List Nat
  creator : Nat
  createdAt : Int
  rsvpOpenAt : Option Int
  image : String
deriving Repr, DecidableEq

/-- Outcome of POST /api/rsvp/:eventId. Each constructor corresponds to one
distinct HTTP response of the handler. `lostRace` is the merged
matched-zero-documents rejection ("Could not RSVP. Event may be at capacity or
you may have already RSVP-ed."), distinct from the optimistic `atCapacity`
("Event is at full capacity") and `alreadyReserved` pre-check rejections. -/
inductive RsvpResult where
  | notFound
  | expired
  | notYetOpen (remainingSeconds : Nat)
  | alreadyReserved
  | atCapacity
  | lostRace
  | success
deriving Repr, DecidableEq

/-- The effective RSVP-window opening instant,
`event.rsvpOpenAt || new Date(event.createdAt.getTime() + 60 * 1000)`:
the stored field, falling back to createdAt + 60 s when unset. -/
def effectiveRsvpOpenAt (e : Event) : Int :=
  e.rsvpOpenAt.getD (e.createdAt + 60 * 1000)

/-- The reported wait, `Math.ceil((rsvpOpenAt - new Date()) / 1000)`, for a
positive millisecond difference `d`: ceiling division of `d` by 1000. -/
def waitSeconds (d : Int) : Nat :=
  (d.toNat + 999) / 1000

/-- MongoDB $addToSet: append the id at the end of the array unless it is
already present. -/
def addToSet (l : List Nat) (u : Nat) : List Nat :=
  if u ∈ l then l else l ++ [u]

/-- The filter of the conditional write:
`attendees: { $ne: userId }` together with
`$expr: { $lt: [ { $size: attendees }, capacity ] }`, evaluated on the
document state at the commit instant of the store. -/
def commitMatches (e : Event) (u : Nat) : Bool :=
  decide (u ∉ e.attendees) && decide (e.attendees.length < e.capacity)

/-- The effect of `Event.updateOne(filter, { $addToSet: { attendees: userId } })`
on the current document: mutate only when the filter matches. -/
def condCommit (e : Event) (u : Nat) : Event :=
  if commitMatches e u then { e with attendees := addToSet e.attendees u } else e

/-- The RSVP handler, with the read snapshot and the commit-time store state
separated. `snap` is the document returned by `Event.findById` at the start of
the transaction and is what the pre-checks (existence, past-event, RSVP
window, duplicate, capacity) read; `store` is the document state the
conditional `updateOne` is applied against at the commit instant. A
sequential (uncontended) call has `snap = store`; a racing call may act on a
stale `snap`. Returns the HTTP outcome and the post-call store state. -/
def tryReserve (snap : Option Event) (store : Option Event) (u : Nat) (now : Int) :
    RsvpResult × Option Event :=
  match snap with
  | none => (.notFound, store)
  | some e =>
    if e.date < now then
      (.expired, store)
    else if now < effectiveRsvpOpenAt e then
      (.notYetOpen (waitSeconds (effectiveRsvpOpenAt e - now)), store)
    else if u ∈ e.attendees then
      (.alreadyReserved, store)
    else if e.capacity ≤ e.attendees.length then
      (.atCapacity, store)
    else
      match store with
      | none => (.lostRace, none)
      | some cur =>
        if commitMatches cur u then (.success, some (condCommit cur u))
        else (.lostRace, some cur)

/-- Uncontended call: pre-checks and the conditional write see the same
document state. -/
def tryReserveSeq (store : Option Event) (u : Nat) (now : Int) :
    RsvpResult × Option Event :=
  tryReserve store store u now

/-- Outcome of DELETE /api/rsvp/:eventId. -/
inductive CancelResult where
  | notFound
  | notReserved
  | success
deriving Repr, DecidableEq

/-- The attendees update a successful cancellation performs:
`event.attendees = event.attendees.filter(a => a.toString() !== userId.toString())`. -/
def cancelledEvent (e : Event) (u : Nat) : Event :=
  { e with attendees := e.attendees.filter (fun a => a ≠ u) }

/-- The cancel handler. It receives the request time `now` (the server clock
is available to it) but never reads it: cancellation is not time-gated. The
handler rejects when the user has no RSVP; otherwise it saves the filtered
attendees array. -/
def cancelRSVP (store : Option Event) (u : Nat) (_now : Int) :
    CancelResult × Option Event :=
  match store with
  | none => (.notFound, none)
  | some e =>
    if u ∈ e.attendees then
      (.success, some (cancelledEvent e u))
    else
      (.notReserved, some e)

/-- Outcome of POST /api/events. -/
inductive CreateResult where
  | validationFailed
  | created (e : Event)
deriving Repr, DecidableEq

/-- Whitespace trimming at both ends, the sanitizer trim() of
express-validator (spelled over the character list so that it evaluates). -/
def trimStr (s : String) : String :=
  ⟨((s.toList.dropWhile Char.isWhitespace).reverse.dropWhile Char.isWhitespace).reverse⟩

/-- The express-validator chain shared by create and update: title,
description and location trimmed non-empty, capacity an integer of at least
one. (The date field is required syntactically; it is a parameter here.) -/
def validInput (title description location : String) (capacity : Nat) : Bool :=
  !(trimStr title = "" || trimStr description = "" || trimStr location = ""
    || capacity < 1)

/-- The create handler: on valid input it stores a new event with empty
attendees, createdAt = now and rsvpOpenAt = now + 60 s. -/
def createEvent (title description : String) (date : Int) (location : String)
    (capacity : Nat) (image : String) (creator : Nat) (now : Int) : CreateResult :=
  if validInput title description location capacity then
    .created
      { title := trimStr title
        description := trimStr description
        date := date
        location := trimStr location
        capacity := capacity
        attendees := []
        creator := creator
        createdAt := now
        rsvpOpenAt := some (now + 60 * 1000)
        image := image }
  else
    .validationFailed

/-- Outcome of PUT /api/events/:id. -/
inductive UpdateResult where
  | validationFailed
  | notFound
  | forbidden
  | capacityBelowAttendance (count : Nat)
  | updated
deriving Repr, DecidableEq

/-- The record an admitted update stores: an uploaded image replaces the old
one only when the event already has one (the `req.file && event.image` guard),
and title, description, date, location and capacity are overwritten. The
attendees array, creator, createdAt and rsvpOpenAt are not assigned. -/
def updatedEvent (e : Event) (title description : String) (date : Int)
    (location : String) (capacity : Nat) (newImage : Option String) : Event :=
  let e1 := match newImage with
    | some img => if e.image ≠ "" then { e with image := img } else e
    | none => e
  { e1 with
    title := trimStr title
    description := trimStr description
    date := date
    location := trimStr location
    capacity := capacity }

/-- The update handler: validation, existence, creator authorization, then
the capacity-versus-attendance guard; only past all four does it overwrite
the fields and save. Returns the HTTP outcome and the post-call store
state. -/
def updateEvent (store : Option Event) (requester : Nat) (title description : String)
    (date : Int) (location : String) (capacity : Nat) (newImage : Option String) :
    UpdateResult × Option Event :=
  if !validInput title description location capacity then
    (.validationFailed, store)
  else
    match store with
    | none => (.notFound, none)
    | some e =>
      if e.creator ≠ requester then
        (.forbidden, some e)
      else if capacity < e.attendees.length then
        (.capacityBelowAttendance e.attendees.length, some e)
      else
        (.updated, some (updatedEvent e title description date location capacity newImage))

/-- One mutation of a single event document through the HTTP surface: a
(possibly raced) RSVP, a cancellation, or a creator update. -/
inductive StoreOp where
  | reserveOp (snap : Option Event) (u : Nat) (now : Int)
  | cancelOp (u : Nat) (now : Int)
  | updateOp (requester : Nat) (title description : String) (date : Int)
      (location : String) (capacity : Nat) (newImage : Option String)

/-- Apply one operation to the document state. -/
def applyOp (s : Option Event) : StoreOp → Option Event
  | .reserveOp snap u now => (tryReserve snap s u now).2
  | .cancelOp u now => (cancelRSVP s u now).2
  | .updateOp r t d dt l c img => (updateEvent s r t d dt l c img).2

/-- Run a sequence of operations against the document state. -/
def runOps (s : Option Event) (ops : List StoreOp) : Option Event :=
  ops.foldl applyOp s

/-- Run a sequence of (possibly raced) tryReserve calls: each call carries
its own read snapshot and request time, while the conditional write of each
is applied to the store state current at its commit instant. Any
interleaving of concurrent handlers is one such sequence, ordered by commit
instant. -/
def runReserves (s : Option Event) (calls : List (Option Event × Nat × Int)) :
    Option Event :=
  calls.foldl (fun st c => (tryReserve c.1 st c.2.1 c.2.2).2) s

/-- The central safety property: the attendee count never exceeds capacity. -/
def capacityInv : Option Event → Prop
  | none => True
  | some e => e.attendees.length ≤ e.capacity

instance : (s : Option Event) → Decidable (capacityInv s)
  | none => isTrue trivial
  | some e => inferInstanceAs (Decidable (e.attendees.length ≤ e.capacity))

/-- The attendees array holds no duplicate user id. -/
def noDupInv : Option Event → Prop
  | none => True
  | some e => e.attendees.Nodup

instance : (s : Option Event) → Decidable (noDupInv s)
  | none => isTrue trivial
  | some e => inferInstanceAs (Decidable e.attendees.Nodup)

/-- Case folding for the $options: 'i' regular-expression match. -/
def lowerChars (s : String) : List Char :=
  s.toList.map Char.toLower

/-- Whether `needle` matches at the head of `hay`. -/
def leadMatch : List Char → List Char → Bool
  | [], _ => true
  | _ :: _, [] => false
  | a :: as, b :: bs => a == b && leadMatch as bs

/-- Whether `needle` occurs contiguously anywhere in `hay`. -/
def hasSub (needle : List Char) : List Char → Bool
  | [] => leadMatch needle []
  | b :: bs => leadMatch needle (b :: bs) || hasSub needle bs

/-- Case-insensitive substring containment (the reading §4.3 of the design
document gives the title filter). -/
def containsCI (hay pat : String) : Bool :=
  hasSub (lowerChars pat) (lowerChars hay)

/-- A quantifier attached to one pattern character: exactly once, `?`, `+`
or `*`. -/
inductive RQuant where
  | one
  | opt
  | plus
  | star
deriving Repr, DecidableEq

/-- The regular-expression metacharacters of the engine behind
`{ $regex: search }`: a search string containing none of these is matched
literally. -/
def isMeta (c : Char) : Bool :=
  c == '+' || c == '*' || c == '?' || c == '.' || c == '(' || c == ')'
  || c == '[' || c == ']' || c == '{' || c == '}' || c == '|' || c == '^'
  || c == '$' || c == '\\'

/-- Parse a search string into the modelled regex fragment: literal
characters, each optionally followed by one of the quantifiers `+`, `*`, `?`.
A pattern using any other metacharacter — or a dangling quantifier, which the
engine rejects as invalid and the route surfaces as a 500 error — is outside
the fragment and yields none. -/
def parsePattern : List Char → Option (List (Char × RQuant))
  | [] => some []
  | c :: rest =>
    if isMeta c then none
    else
      match rest with
      | [] => (parsePattern []).map (List.cons (c, RQuant.one))
      | d :: rest' =>
        if d == '+' then (parsePattern rest').map (List.cons (c, RQuant.plus))
        else if d == '*' then (parsePattern rest').map (List.cons (c, RQuant.star))
        else if d == '?' then (parsePattern rest').map (List.cons (c, RQuant.opt))
        else (parsePattern (d :: rest')).map (List.cons (c, RQuant.one))

/-- The backtracking matcher for the fragment: does the item sequence match
some prefix of the input? The fuel only makes the recursion structural; every
recursive call shrinks input-length + item-count, so the fuel `matchSeq`
supplies is never exhausted. -/
def matchFuel : Nat → List (Char × RQuant) → List Char → Bool
  | 0, _, _ => false
  | _ + 1, [], _ => true
  | _ + 1, (_, .one) :: _, [] => false
  | f + 1, (c, .one) :: rest, d :: ds => c == d && matchFuel f rest ds
  | f + 1, (_, .opt) :: rest, [] => matchFuel f rest []
  | f + 1, (c, .opt) :: rest, d :: ds =>
      matchFuel f rest (d :: ds) || (c == d && matchFuel f rest ds)
  | _ + 1, (_, .plus) :: _, [] => false
  | f + 1, (c, .plus) :: rest, d :: ds =>
      c == d && matchFuel f ((c, RQuant.star) :: rest) ds
  | f + 1, (_, .star) :: rest, [] => matchFuel f rest []
  | f + 1, (c, .star) :: rest, d :: ds =>
      matchFuel f rest (d :: ds) || (c == d && matchFuel f ((c, RQuant.star) :: rest) ds)

/-- Whether the item sequence matches some prefix of the input. -/
def matchSeq (items : List (Char × RQuant)) (cs : List Char) : Bool :=
  matchFuel (cs.length + items.length + 1) items cs

/-- Unanchored search: the item sequence matches somewhere in the input. -/
def searchFrom (items : List (Char × RQuant)) : List Char → Bool
  | [] => matchSeq items []
  | c :: cs => matchSeq items (c :: cs) || searchFrom items cs

/-- The title condition `{ $regex: search, $options: 'i' }`: the search
string is a regular-expression PATTERN, not a literal, matched unanchored and
case-insensitively against the title. Patterns outside the modelled fragment
(parsePattern = none) are given no behaviour here — false, matching nothing;
theorems about the listing take `searchModelled` to stay inside the
fragment. -/
def regexMatchCI (pat hay : String) : Bool :=
  match parsePattern pat.toList with
  | some items => searchFrom (items.map (fun i => (i.1.toLower, i.2))) (lowerChars hay)
  | none => false

/-- A search string free of regex metacharacters: on these, and only by
accident of their shape, the regex filter behaves as a literal substring
filter. -/
def literalPattern (s : String) : Bool :=
  s.toList.all (fun c => !isMeta c)

/-- Queries whose search parameter the embedding models: no search, an empty
(falsy, hence ignored) one, or a pattern inside the modelled regex
fragment. -/
def searchModelled : Option String → Bool
  | none => true
  | some s => s.isEmpty || (parsePattern s.toList).isSome

/-- The find() filter GET /api/events builds. It starts from
`{ date: { $gte: new Date() } }`; a (truthy, i.e. non-empty) search parameter
adds the case-insensitive `$regex` title condition; a date parameter
OVERWRITES the date condition with `{ $gte: new Date(date) }`. -/
def matchesQuery (now : Int) (search : Option String) (dateParam : Option Int)
    (e : Event) : Bool :=
  (match dateParam with
   | some d => decide (d ≤ e.date)
   | none => decide (now ≤ e.date))
  && (match search with
      | none => true
      | some s => s.isEmpty || regexMatchCI s e.title)

/-- The dates-ascending order the listing sorts by, `.sort({ date: 1 })`. -/
def dateLE (a b : Event) : Prop :=
  a.date ≤ b.date

instance : DecidableRel dateLE := fun a b =>
  inferInstanceAs (Decidable (a.date ≤ b.date))

instance : IsTotal Event dateLE :=
  ⟨fun a b => le_total a.date b.date⟩

instance : IsTrans Event dateLE :=
  ⟨fun _ _ _ => le_trans⟩

/-- GET /api/events: filter the stored events by the built query and return
them sorted ascending by date (a stable sort, modelled by insertion sort). -/
def getEvents (events : List Event) (search : Option String) (dateParam : Option Int)
    (now : Int) : List Event :=
  (events.filter (matchesQuery now search dateParam)).insertionSort dateLE

/-! ### Sample documents used by witnesses and counterexamples -/

/-- A one-seat event, RSVP window open from the epoch, dated far ahead. -/
def evCap1 : Event :=
  { title := "t", description := "d", date := 1000000, location := "l",
    capacity := 1, attendees := [], creator := 1, createdAt := 0,
    rsvpOpenAt := some 0, image := "" }

/-- A two-seat event dated 100 s after the epoch, window open from the epoch. -/
def evRace : Event :=
  { title := "t", description := "d", date := 100000, location := "l",
    capacity := 2, attendees := [], creator := 1, createdAt := 0,
    rsvpOpenAt := some 0, image := "" }

/-- `evRace` after user 7 reserved a seat. -/
def evRaceJoined : Event :=
  { evRace with attendees := [7] }

/-- An already-expired event (date 10 ms) with a far-future RSVP window, user
7 already among the attendees, and spare capacity: every later check would
also fire, so only the check order decides the outcome. -/
def evPastDate : Event :=
  { title := "t", description := "d", date := 10, location := "l",
    capacity := 5, attendees := [7], creator := 1, createdAt := 0,
    rsvpOpenAt := some 999999, image := "" }

/-- An event whose RSVP window opens at 1000 ms. -/
def evWindow : Event :=
  { title := "t", description := "d", date := 1000000, location := "l",
    capacity := 1, attendees := [], creator := 1, createdAt := 0,
    rsvpOpenAt := some 1000, image := "" }

/-- A full one-seat event (the commit-time state a racing caller loses to). -/
def evFull : Event :=
  { title := "t", description := "d", date := 1000000, location := "l",
    capacity := 1, attendees := [3], creator := 1, createdAt := 0,
    rsvpOpenAt := some 0, image := "" }

/-- An upcoming event used by the listing witnesses. -/
def evU : Event :=
  { title := "Community Meetup", description := "d", date := 50, location := "l",
    capacity := 3, attendees := [], creator := 1, createdAt := 0,
    rsvpOpenAt := some 0, image := "" }

/-- An upcoming event whose title is "box": it matches the search pattern
"x+" as a regex although "x+" is not a substring of it. -/
def evBox : Event :=
  { title := "box", description := "d", date := 100, location := "l",
    capacity := 3, attendees := [], creator := 1, createdAt := 0,
    rsvpOpenAt := some 0, image := "" }

/-- A stored event already past at query time 10 (its date is 5). -/
def evPast : Event :=
  { title := "meetup", description := "d", date := 5, location := "l",
    capacity := 3, attendees := [], creator := 1, createdAt := 0,
    rsvpOpenAt := some 0, image := "" }

/-- An event with two attendees, created by user 9. -/
def evTwo : Event :=
  { title := "t", description := "d", date := 700000, location := "l",
    capacity := 3, attendees := [4, 5], creator := 9, createdAt := 0,
    rsvpOpenAt := some 0, image := "" }

/-- The event the create-handler witness expects to be stored. -/
def evCreated : Event :=
  { title := "t", description := "d", date := 500000, location := "l",
    capacity := 2, attendees := [], creator := 9, createdAt := 0,
    rsvpOpenAt := some 60000, image := "" }

/-! ### Helper lemmas -/

/-- Every tryReserve call either leaves the store untouched or replaces the
current document by its conditional-commit image: the conditional write is
the only mutation on the join path. -/
lemma tryReserve_state (snap s : Option Event) (u : Nat) (now : Int) :
    (tryReserve snap s u now).2 = s ∨
      ∃ cur, s = some cur ∧ (tryReserve snap s u now).2 = some (condCommit cur u) := by
  unfold tryReserve
  cases snap with
  | none => exact Or.inl rfl
  | some e =>
    by_cases h1 : e.date < now
    · simp [h1]
    · by_cases h2 : now < effectiveRsvpOpenAt e
      · simp [h1, h2]
      · by_cases h3 : u ∈ e.attendees
        · simp [h1, h2, h3]
        · by_cases h4 : e.capacity ≤ e.attendees.length
          · simp [h1, h2, h3, h4]
          · cases s with
            | none => simp [h1, h2, h3, h4]
            | some cur =>
              by_cases hm : commitMatches cur u
              · exact Or.inr ⟨cur, rfl, by simp [h1, h2, h3, h4, hm]⟩
              · exact Or.inl (by simp [h1, h2, h3, h4, hm])

/-- The conditional commit preserves the capacity bound: it adds a seat only
when a seat is free at the commit instant. -/
lemma condCommit_capacity (e : Event) (u : Nat)
    (h : e.attendees.length ≤ e.capacity) :
    (condCommit e u).attendees.length ≤ (condCommit e u).capacity := by
  unfold condCommit
  by_cases hm : commitMatches e u
  · have hlt : u ∉ e.attendees ∧ e.attendees.length < e.capacity := by
      simpa [commitMatches] using hm
    simp [hm, addToSet, hlt.1]
    omega
  · simp [hm, h]

/-- The conditional commit preserves duplicate-freeness: it adds an id only
when the id is absent at the commit instant. -/
lemma condCommit_nodup (e : Event) (u : Nat) (h : e.attendees.Nodup) :
    (condCommit e u).attendees.Nodup := by
  unfold condCommit
  by_cases hm : commitMatches e u
  · have hu : u ∉ e.attendees ∧ e.attendees.length < e.capacity := by
      simpa [commitMatches] using hm
    simp [hm, addToSet, hu.1, h, List.nodup_append]
  · simpa [hm] using h

/-- One raced tryReserve call preserves the capacity invariant. -/
lemma reserve_step_capacity (snap s : Option Event) (u : Nat) (now : Int)
    (h : capacityInv s) : capacityInv (tryReserve snap s u now).2 := by
  rcases tryReserve_state snap s u now with hs | ⟨cur, hcur, hs⟩
  · rwa [hs]
  · rw [hs]
    subst hcur
    exact condCommit_capacity cur u h

/-- One raced tryReserve call preserves duplicate-freeness. -/
lemma reserve_step_nodup (snap s : Option Event) (u : Nat) (now : Int)
    (h : noDupInv s) : noDupInv (tryReserve snap s u now).2 := by
  rcases tryReserve_state snap s u now with hs | ⟨cur, hcur, hs⟩
  · rwa [hs]
  · rw [hs]
    subst hcur
    exact condCommit_nodup cur u h

/-- Cancellation preserves the capacity invariant: it can only shrink the
attendees array. -/
lemma cancel_step_capacity (s : Option Event) (u : Nat) (now : Int)
    (h : capacityInv s) : capacityInv (cancelRSVP s u now).2 := by
  cases s with
  | none => exact h
  | some e =>
    unfold cancelRSVP
    by_cases hu : u ∈ e.attendees
    · simp only [hu, if_pos]
      show (cancelledEvent e u).attendees.length ≤ (cancelledEvent e u).capacity
      calc (cancelledEvent e u).attendees.length
          ≤ e.attendees.length := List.length_filter_le _ _
        _ ≤ e.capacity := h
    · simpa [hu] using h

/-- Cancellation preserves duplicate-freeness: filtering keeps a sublist. -/
lemma cancel_step_nodup (s : Option Event) (u : Nat) (now : Int)
    (h : noDupInv s) : noDupInv (cancelRSVP s u now).2 := by
  cases s with
  | none => exact h
  | some e =>
    unfold cancelRSVP
    by_cases hu : u ∈ e.attendees
    · simp only [hu, if_pos]
      exact List.Nodup.filter _ h
    · simpa [hu] using h

/-- The update handler either leaves the store untouched or — only after the
guard `capacity < attendees.length` failed — stores a record with the same
attendees array and the requested capacity. -/
lemma updateEvent_state (s : Option Event) (r : Nat) (title description : String)
    (date : Int) (location : String) (capacity : Nat) (img : Option String) :
    (updateEvent s r title description date location capacity img).2 = s ∨
      ∃ e e', s = some e ∧ ¬ capacity < e.attendees.length
        ∧ (updateEvent s r title description date location capacity img).2 = some e'
        ∧ e'.attendees = e.attendees ∧ e'.capacity = capacity := by
  unfold updateEvent
  by_cases hv : validInput title description location capacity
  · cases s with
    | none => simp [hv]
    | some e =>
      by_cases hr : e.creator ≠ r
      · simp [hv, hr]
      · by_cases hc : capacity < e.attendees.length
        · simp [hv, hr, hc]
        · refine Or.inr ⟨e, updatedEvent e title description date location capacity img,
            rfl, hc, by simp [hv, hr, hc], ?_, rfl⟩
          cases img with
          | none => rfl
          | some i =>
            by_cases himg : e.image ≠ "" <;> simp [updatedEvent, himg]
  · simp [hv]

/-- The update handler preserves the capacity invariant. -/
lemma update_step_capacity (s : Option Event) (r : Nat) (title description : String)
    (date : Int) (location : String) (capacity : Nat) (img : Option String)
    (h : capacityInv s) :
    capacityInv (updateEvent s r title description date location capacity img).2 := by
  rcases updateEvent_state s r title description date location capacity img with
    hs | ⟨e, e', _, hc, hs, ha, hcap⟩
  · rwa [hs]
  · rw [hs]
    show e'.attendees.length ≤ e'.capacity
    rw [ha, hcap]
    omega

/-- The update handler preserves duplicate-freeness: the attendees array is
never touched. -/
lemma update_step_nodup (s : Option Event) (r : Nat) (title description : String)
    (date : Int) (location : String) (capacity : Nat) (img : Option String)
    (h : noDupInv s) :
    noDupInv (updateEvent s r title description date location capacity img).2 := by
  rcases updateEvent_state s r title description date location capacity img with
    hs | ⟨e, e', hse, _, hs, ha, _⟩
  · rwa [hs]
  · rw [hs]
    show e'.attendees.Nodup
    rw [ha]
    rw [hse] at h
    exact h

/-- Any single API operation preserves duplicate-freeness. -/
lemma applyOp_nodup (s : Option Event) (op : StoreOp) (h : noDupInv s) :
    noDupInv (applyOp s op) := by
  cases op with
  | reserveOp snap u now => exact reserve_step_nodup snap s u now h
  | cancelOp u now => exact cancel_step_nodup s u now h
  | updateOp r t d dt l c img => exact update_step_nodup s r t d dt l c img h

/-- Any sequence of API operations preserves duplicate-freeness. -/
lemma runOps_nodup (s : Option Event) (ops : List StoreOp) (h : noDupInv s) :
    noDupInv (runOps s ops) := by
  induction ops generalizing s with
  | nil => exact h
  | cons op ops ih => exact ih (applyOp s op) (applyOp_nodup s op h)

/-- A successfully created event starts with an empty attendees array. -/
lemma createEvent_attendees (title description : String) (date : Int)
    (location : String) (capacity : Nat) (image : String) (creator : Nat)
    (now : Int) (e : Event)
    (hc : createEvent title description date location capacity image creator now
      = .created e) :
    e.attendees = [] := by
  unfold createEvent at hc
  by_cases hv : validInput title description location capacity
  · rw [if_pos hv] at hc
    cases hc
    rfl
  · rw [if_neg hv] at hc
    cases hc

/-- A character that is no metacharacter is none of the quantifier
characters. -/
lemma isMeta_false_quants (d : Char) (hd : isMeta d = false) :
    (d == '+') = false ∧ (d == '*') = false ∧ (d == '?') = false := by
  unfold isMeta at hd
  simp only [Bool.or_eq_false_iff] at hd
  exact ⟨by tauto, by tauto, by tauto⟩

/-- A metacharacter-free search string parses as a sequence of literal,
unquantified characters. -/
lemma parsePattern_literal (l : List Char) (h : l.all (fun c => !isMeta c) = true) :
    parsePattern l = some (l.map (fun c => (c, RQuant.one))) := by
  induction l with
  | nil => rfl
  | cons c rest ih =>
    rw [List.all_cons, Bool.and_eq_true] at h
    obtain ⟨hc, hrest⟩ := h
    have hc' : isMeta c = false := by simpa using hc
    cases rest with
    | nil => simp [parsePattern, hc']
    | cons d rest' =>
      have hd : isMeta d = false := by
        have h0 := hrest
        rw [List.all_cons, Bool.and_eq_true] at h0
        simpa using h0.1
      obtain ⟨h1, h2, h3⟩ := isMeta_false_quants d hd
      rw [parsePattern, if_neg (by simp [hc']), ih hrest]
      simp [h1, h2, h3]

/-- On a sequence of literal, unquantified characters, the matcher is the
prefix test (given enough fuel). -/
lemma matchFuel_literal (pat : List Char) (cs : List Char) (f : Nat)
    (hf : pat.length < f) :
    matchFuel f (pat.map (fun c => (c, RQuant.one))) cs = leadMatch pat cs := by
  induction pat generalizing cs f with
  | nil =>
    cases f with
    | zero => exact absurd hf (by omega)
    | succ f => cases cs <;> rfl
  | cons c pat ih =>
    cases f with
    | zero => exact absurd hf (by omega)
    | succ f =>
      cases cs with
      | nil => rfl
      | cons d ds =>
        have hf' : pat.length < f := by
          simp only [List.length_cons] at hf
          omega
        simp [matchFuel, leadMatch, ih ds f hf']

/-- The fuel `matchSeq` supplies always exceeds the literal pattern's
length. -/
lemma matchSeq_literal (pat cs : List Char) :
    matchSeq (pat.map (fun c => (c, RQuant.one))) cs = leadMatch pat cs := by
  unfold matchSeq
  exact matchFuel_literal pat cs _ (by simp; omega)

/-- Unanchored matching of a literal pattern is the substring test. -/
lemma searchFrom_literal (pat cs : List Char) :
    searchFrom (pat.map (fun c => (c, RQuant.one))) cs = hasSub pat cs := by
  induction cs with
  | nil => simp [searchFrom, hasSub, matchSeq_literal]
  | cons c cs ih => simp [searchFrom, hasSub, matchSeq_literal, ih]

/-- On metacharacter-free search strings the `$regex` title filter coincides
with case-insensitive substring containment — the design document's
substring reading is exact there and only there. -/
lemma regexMatchCI_literal (s t : String) (h : literalPattern s = true) :
    regexMatchCI s t = containsCI t s := by
  unfold literalPattern at h
  unfold regexMatchCI containsCI lowerChars
  rw [parsePattern_literal s.toList h]
  show searchFrom ((s.toList.map (fun c => (c, RQuant.one))).map
      (fun i => (i.1.toLower, i.2))) (t.toList.map Char.toLower)
    = hasSub (s.toList.map Char.toLower) (t.toList.map Char.toLower)
  rw [List.map_map, ← searchFrom_literal, List.map_map]
  rfl

/-! ### The claims -/

/-- C1. For every event and every sequence of tryReserve
(POST /api/rsvp/:eventId) operations, including interleaved concurrent ones,
the number of attendees never exceeds the capacity: each call mutates the
document only through the conditional write, which at its commit instant
re-checks that a seat is free, so a store satisfying the capacity bound still
satisfies it after any sequence of calls, whatever (possibly stale) snapshots
their pre-checks read. -/
theorem rsvp_capacity_never_exceeded (s : Option Event)
    (calls : List (Option Event × Nat × Int)) (h : capacityInv s) :
    capacityInv (runReserves s calls) := by
  induction calls generalizing s with
  | nil => exact h
  | cons c cs ih =>
    exact ih ((tryReserve c.1 s c.2.1 c.2.2).2)
      (reserve_step_capacity c.1 s c.2.1 c.2.2 h)

/-- C1 witness: a one-seat event under three racing calls (the second and
third act on a stale empty snapshot) still ends within capacity. -/
theorem rsvp_capacity_never_exceeded_witness :
    capacityInv (some evCap1)
    ∧ capacityInv (runReserves (some evCap1)
        [(some evCap1, 7, 100), (some evCap1, 8, 100), (some evCap1, 9, 100)]) :=
  ⟨by decide,
   rsvp_capacity_never_exceeded (some evCap1)
     [(some evCap1, 7, 100), (some evCap1, 8, 100), (some evCap1, 9, 100)]
     (by decide)⟩

/-- C2. An event stored by POST /api/events starts with an empty attendees
array, and every sequence of join (tryReserve, with arbitrary snapshots),
cancel and update operations keeps the array free of duplicate user ids, so
no observed point shows a duplicate: the conditional write adds an id only
when its `attendees: { $ne: userId }` filter certifies absence at the commit
instant, cancellation filters, and update never assigns attendees. -/
theorem attendees_nodup_from_creation (title description : String) (date : Int)
    (location : String) (capacity : Nat) (image : String) (creator : Nat)
    (now : Int) (e : Event)
    (hc : createEvent title description date location capacity image creator now
      = .created e)
    (ops : List StoreOp) :
    noDupInv (runOps (some e) ops) := by
  have h0 : noDupInv (some e) := by
    show e.attendees.Nodup
    rw [createEvent_attendees title description date location capacity image
      creator now e hc]
    exact List.nodup_nil
  exact runOps_nodup (some e) ops h0

/-- C2 witness: create, then join, cancel and rejoin by user 7 — no
duplicate appears. -/
theorem attendees_nodup_from_creation_witness :
    noDupInv (runOps (some evCreated)
      [.reserveOp (some evCreated) 7 60000, .cancelOp 7 60001,
       .reserveOp (some evCreated) 7 60002]) :=
  attendees_nodup_from_creation "t" "d" 500000 "l" 2 "" 9 0 evCreated (by decide)
    [.reserveOp (some evCreated) 7 60000, .cancelOp 7 60001,
     .reserveOp (some evCreated) 7 60002]

/-- C3. The commit step is a single conditional write: its filter matches the
current document exactly when, at the commit instant, the user is not among
the attendees and a seat is free; on a match the write appends the user id to
the attendees array; and when pre-checks 1–5 passed on the snapshot but the
write matches zero documents, the handler returns the single merged lost-race
rejection (HTTP 400), not success and not a more specific cause. -/
theorem atomic_commit_spec (e cur : Event) (u : Nat) (now : Int)
    (h1 : ¬ e.date < now) (h2 : ¬ now < effectiveRsvpOpenAt e)
    (h3 : u ∉ e.attendees) (h4 : e.attendees.length < e.capacity) :
    (commitMatches cur u = true
      ↔ u ∉ cur.attendees ∧ cur.attendees.length < cur.capacity)
    ∧ (commitMatches cur u = true →
        tryReserve (some e) (some cur) u now
          = (.success, some { cur with attendees := cur.attendees ++ [u] }))
    ∧ (commitMatches cur u = false →
        tryReserve (some e) (some cur) u now = (.lostRace, some cur)) := by
  have hcap : ¬ e.capacity ≤ e.attendees.length := not_le.mpr h4
  refine ⟨by simp [commitMatches], ?_, ?_⟩
  · intro hm
    have hu : u ∉ cur.attendees := by
      have := (by simpa [commitMatches] using hm :
        u ∉ cur.attendees ∧ cur.attendees.length < cur.capacity)
      exact this.1
    simp [tryReserve, h1, h2, h3, hcap, hm, condCommit, addToSet, hu]
  · intro hm
    simp [tryReserve, h1, h2, h3, hcap, hm]

/-- C3 witness: a call whose stale snapshot passes every pre-check loses the
race against a commit-time state already at capacity and gets the merged
rejection, with the store unchanged. -/
theorem atomic_commit_spec_witness :
    tryReserve (some evCap1) (some evFull) 7 100 = (.lostRace, some evFull) :=
  (atomic_commit_spec evCap1 evFull 7 100 (by decide) (by decide) (by decide)
    (by decide)).2.2 (by decide)

/-- C4. The preconditions are evaluated in the fixed order NotFound, Expired,
NotYetOpen, AlreadyReserved, AtCapacity, each fast-failing with its own
outcome and leaving the store untouched; in particular an event whose date is
strictly in the past is rejected as Expired whatever rsvpOpenAt, attendees
and capacity hold. -/
theorem precondition_order_spec (e : Event) (s : Option Event) (u : Nat) (now : Int) :
    tryReserve none s u now = (.notFound, s)
    ∧ (e.date < now → tryReserve (some e) s u now = (.expired, s))
    ∧ (¬ e.date < now → now < effectiveRsvpOpenAt e →
        tryReserve (some e) s u now
          = (.notYetOpen (waitSeconds (effectiveRsvpOpenAt e - now)), s))
    ∧ (¬ e.date < now → ¬ now < effectiveRsvpOpenAt e → u ∈ e.attendees →
        tryReserve (some e) s u now = (.alreadyReserved, s))
    ∧ (¬ e.date < now → ¬ now < effectiveRsvpOpenAt e → u ∉ e.attendees →
        e.capacity ≤ e.attendees.length →
        tryReserve (some e) s u now = (.atCapacity, s)) := by
  refine ⟨rfl, ?_, ?_, ?_, ?_⟩ <;> intros <;> simp [tryReserve, *]

/-- C4 witness: an event one millisecond past its date, with a far-future
RSVP window, the caller already an attendee and seats free, is still rejected
as Expired. -/
theorem precondition_order_spec_witness :
    tryReserve (some evPastDate) (some evPastDate) 7 11 = (.expired, some evPastDate) :=
  (precondition_order_spec evPastDate (some evPastDate) 7 11).2.1 (by decide)

/-- C5. For an existing, non-past event the sequential call is rejected with
the window message exactly when now < rsvpOpenAt (so a call at exactly
rsvpOpenAt passes the gate and one a millisecond earlier is rejected), where
rsvpOpenAt is the stored field with the createdAt + 60 s fallback, and the
rejection reports ceil((rsvpOpenAt - now)/1000) remaining seconds: the
reported value w satisfies d ≤ 1000·w < d + 1000 for the millisecond gap d. -/
theorem rsvp_window_gate (e : Event) (u : Nat) (now : Int) (hpast : ¬ e.date < now) :
    (now < effectiveRsvpOpenAt e
      ↔ ∃ r, (tryReserveSeq (some e) u now).1 = .notYetOpen r)
    ∧ (now < effectiveRsvpOpenAt e →
        tryReserveSeq (some e) u now
          = (.notYetOpen (waitSeconds (effectiveRsvpOpenAt e - now)), some e))
    ∧ (∀ d : Int, 0 < d →
        d ≤ 1000 * (waitSeconds d : Int) ∧ 1000 * (waitSeconds d : Int) < d + 1000)
    ∧ effectiveRsvpOpenAt e = e.rsvpOpenAt.getD (e.createdAt + 60 * 1000) := by
  refine ⟨⟨fun hw => ⟨waitSeconds (effectiveRsvpOpenAt e - now),
    by simp [tryReserveSeq, tryReserve, hpast, hw]⟩, ?_⟩,
    fun hw => by simp [tryReserveSeq, tryReserve, hpast, hw], ?_, rfl⟩
  · rintro ⟨r, hr⟩
    by_contra hw
    simp only [tryReserveSeq, tryReserve, if_neg hpast, if_neg hw] at hr
    by_cases h3 : u ∈ e.attendees
    · simp [h3] at hr
    · by_cases h4 : e.capacity ≤ e.attendees.length
      · simp [h3, h4] at hr
      · by_cases hm : commitMatches e u
        · simp [h3, h4, hm] at hr
        · simp [h3, h4, hm] at hr
  · intro d hd
    unfold waitSeconds
    omega

/-- C5 witness: window at 1000 ms, call at 999 ms — rejected one millisecond
early with a reported wait of one second. -/
theorem rsvp_window_gate_witness :
    tryReserveSeq (some evWindow) 7 999 = (.notYetOpen 1, some evWindow) :=
  (rsvp_window_gate evWindow 7 999 (by decide)).2.1 (by decide)

/-- C6 counterexample: user 7 reserves successfully at time 0 on an event
dated 100000, but the subsequent call by the same pair at time 200000 — after
the event date passed — returns Expired, not AlreadyReserved: the past-event
check fires before the membership check. -/
theorem subsequent_reserve_counterexample :
    (tryReserveSeq (some evRace) 7 0).1 = .success
    ∧ (tryReserveSeq (tryReserveSeq (some evRace) 7 0).2 7 200000).1 = .expired
    ∧ RsvpResult.expired ≠ RsvpResult.alreadyReserved := by
  decide

/-- C6 (amended). After a successful tryReserve by a user, every subsequent
tryReserve by the same (event, user) pair made at a later time at which the
event has not yet expired returns AlreadyReserved and leaves the event state
entirely unchanged — and since the state is unchanged, arbitrarily many such
repetitions behave identically. (A subsequent call after the event date is
instead rejected as Expired by the earlier check.) -/
theorem already_reserved_after_success (e e' : Event) (u : Nat) (t t' : Int)
    (hsucc : tryReserveSeq (some e) u t = (.success, some e'))
    (hmono : t ≤ t') (hnotpast : ¬ e'.date < t') :
    tryReserveSeq (some e') u t' = (.alreadyReserved, some e') := by
  unfold tryReserveSeq tryReserve at hsucc
  by_cases h1 : e.date < t
  · simp [h1] at hsucc
  · by_cases h2 : t < effectiveRsvpOpenAt e
    · simp [h1, h2] at hsucc
    · by_cases h3 : u ∈ e.attendees
      · simp [h1, h2, h3] at hsucc
      · by_cases h4 : e.capacity ≤ e.attendees.length
        · simp [h1, h2, h3, h4] at hsucc
        · have hm : commitMatches e u = true := by
            simp [commitMatches, h3]
            omega
          simp only [if_neg h1, if_neg h2, if_neg h3, if_neg h4, if_pos hm,
            Prod.mk.injEq, Option.some.injEq] at hsucc
          have he' : e' = { e with attendees := e.attendees ++ [u] } := by
            rw [← hsucc.2]
            simp [condCommit, hm, addToSet, h3]
          subst he'
          have hw : ¬ t' < effectiveRsvpOpenAt e := fun hlt =>
            h2 (lt_of_le_of_lt hmono hlt)
          have hmem : u ∈ e.attendees ++ [u] := by simp
          simp only [tryReserveSeq, tryReserve]
          simp [effectiveRsvpOpenAt] at hw ⊢
          simp [hnotpast, hw, hmem]

/-- C6 witness: after the recorded success of user 7 at time 0, a repeat at
time 50000 (before the event date) is rejected as AlreadyReserved with the
store unchanged. -/
theorem already_reserved_after_success_witness :
    tryReserveSeq (some evRaceJoined) 7 50000 = (.alreadyReserved, some evRaceJoined) :=
  already_reserved_after_success evRace evRaceJoined 7 0 50000 (by decide)
    (by decide) (by decide)

/-- C7. On an existing event, cancel succeeds exactly when the user id is
among the attendees, and then removes it; when it is absent the call is
rejected as NotReserved (HTTP 400) with the event unchanged; and the outcome
is the same whatever the request time — cancellation is never time-gated. -/
theorem cancel_membership_spec (e : Event) (u : Nat) (now now' : Int) :
    ((cancelRSVP (some e) u now).1 = .success ↔ u ∈ e.attendees)
    ∧ (u ∈ e.attendees →
        cancelRSVP (some e) u now = (.success, some (cancelledEvent e u))
        ∧ u ∉ (cancelledEvent e u).attendees)
    ∧ (u ∉ e.attendees → cancelRSVP (some e) u now = (.notReserved, some e))
    ∧ cancelRSVP (some e) u now = cancelRSVP (some e) u now' := by
  by_cases hu : u ∈ e.attendees
  · exact ⟨by simp [cancelRSVP, hu],
      fun _ => ⟨by simp [cancelRSVP, hu], by simp [cancelledEvent]⟩,
      fun h => absurd hu h, rfl⟩
  · exact ⟨by simp [cancelRSVP, hu],
      fun h => absurd h hu,
      fun _ => by simp [cancelRSVP, hu], rfl⟩

/-- C7 witness: user 7 holds a seat, so the cancel succeeds; the request time
is arbitrary. -/
theorem cancel_membership_spec_witness :
    (cancelRSVP (some evRaceJoined) 7 123).1 = .success :=
  (cancel_membership_spec evRaceJoined 7 123 456).1.mpr (by decide)

/-- C8 counterexample, in two parts. With a date parameter of 0 and query
time 10, the listing returns an event dated 5 — already in the past —
because the supplied date filter overwrites the upcoming-only condition
rather than being added to it. And with search parameter "x+" the listing
returns the event titled "box", whose title does not contain "x+" as a
substring (case-insensitively or otherwise): the search string is a regex
pattern, not a literal. -/
theorem listing_counterexample :
    (getEvents [evPast] none (some 0) 10 = [evPast] ∧ evPast.date < 10)
    ∧ (getEvents [evBox] (some "x+") none 0 = [evBox]
       ∧ containsCI evBox.title "x+" = false) := by
  decide

/-- C8 (amended). For any query whose search parameter lies in the modelled
regex fragment: when no date parameter is supplied, every event returned by
GET /api/events has date ≥ now; a supplied date parameter REPLACES the
upcoming-only condition, so every returned event has date ≥ that minimum
date (which may lie in the past, in which case past events are returned);
a non-empty search parameter is interpreted as a case-insensitive regular
expression that must match the returned titles — which coincides with
case-insensitive substring containment exactly on metacharacter-free search
strings; and the result is sorted ascending by date (and is a permutation of
the stored events matching the query). -/
theorem listing_filter_sorted (events : List Event) (search : Option String)
    (dateParam : Option Int) (now : Int)
    (_hmod : searchModelled search = true) :
    (∀ e ∈ getEvents events search dateParam now,
        (dateParam = none → now ≤ e.date)
        ∧ (∀ d, dateParam = some d → d ≤ e.date)
        ∧ (∀ s, search = some s → s.isEmpty = false → regexMatchCI s e.title = true))
    ∧ (∀ s t, literalPattern s = true → regexMatchCI s t = containsCI t s)
    ∧ List.Sorted dateLE (getEvents events search dateParam now)
    ∧ (getEvents events search dateParam now).Perm
        (events.filter (matchesQuery now search dateParam)) := by
  refine ⟨?_, fun s t h => regexMatchCI_literal s t h,
    List.sorted_insertionSort dateLE _, List.perm_insertionSort dateLE _⟩
  intro e he
  have hf : e ∈ events.filter (matchesQuery now search dateParam) :=
    (List.perm_insertionSort dateLE _).mem_iff.mp he
  have hm : matchesQuery now search dateParam e = true := (List.mem_filter.mp hf).2
  unfold matchesQuery at hm
  rw [Bool.and_eq_true] at hm
  refine ⟨?_, ?_, ?_⟩
  · intro hnone
    rw [hnone] at hm
    exact of_decide_eq_true hm.1
  · intro d hd
    rw [hd] at hm
    exact of_decide_eq_true hm.1
  · intro s hs hne
    rw [hs] at hm
    have h2 := hm.2
    simp only [hne, Bool.false_or] at h2
    exact h2

/-- C8 witness: an upcoming event whose title matches the (metacharacter-free)
search is returned with its date at or after the query time, the regex filter
agrees with the substring reading on that search string, and the result is
date-sorted. -/
theorem listing_filter_sorted_witness :
    (10 : Int) ≤ evU.date
    ∧ regexMatchCI "meet" evU.title = true
    ∧ regexMatchCI "meet" evU.title = containsCI evU.title "meet"
    ∧ List.Sorted dateLE (getEvents [evU] (some "meet") none 10) :=
  ⟨((listing_filter_sorted [evU] (some "meet") none 10 (by decide)).1 evU
      (by decide)).1 rfl,
   ((listing_filter_sorted [evU] (some "meet") none 10 (by decide)).1 evU
      (by decide)).2.2 "meet" rfl (by decide),
   (listing_filter_sorted [evU] (some "meet") none 10 (by decide)).2.1
     "meet" evU.title (by decide),
   (listing_filter_sorted [evU] (some "meet") none 10 (by decide)).2.2.1⟩

/-- C9. A creator update whose requested capacity is below the current
attendee count is rejected with the attendee count reported in the error, and
the stored event is left entirely unchanged. -/
theorem update_capacity_guard (e : Event) (r : Nat) (title description : String)
    (date : Int) (location : String) (capacity : Nat) (img : Option String)
    (hv : validInput title description location capacity = true)
    (hr : e.creator = r) (hcap : capacity < e.attendees.length) :
    updateEvent (some e) r title description date location capacity img
      = (.capacityBelowAttendance e.attendees.length, some e) := by
  simp [updateEvent, hv, hr, hcap]

/-- C9 witness: the spec scenario — capacity 1 requested on an event with two
attendees is rejected reporting the count 2, event unchanged. -/
theorem update_capacity_guard_witness :
    updateEvent (some evTwo) 9 "t" "d" 700000 "l" 1 none
      = (.capacityBelowAttendance 2, some evTwo) :=
  update_capacity_guard evTwo 9 "t" "d" 700000 "l" 1 none (by decide) (by decide)
    (by decide)

/-- Counting any id other than the removed one is unaffected by the
cancellation filter. -/
lemma count_filter_ne (l : List Nat) (u v : Nat) (hv : v ≠ u) :
    (l.filter (fun a => a ≠ u)).count v = l.count v := by
  induction l with
  | nil => rfl
  | cons a l ih =>
    simp only [decide_not] at ih ⊢
    by_cases ha : a = u
    · subst ha
      simp [List.filter_cons, List.count_cons, hv, ih]
    · simp [List.filter_cons, List.count_cons, ha, ih]

/-- C10. A successful cancel stores the old attendees sequence with every
occurrence of the user id removed — the id is gone, the remaining ids keep
their relative order (the new sequence is a sublist of the old) and their
multiplicities — and every other field of the event (title, description,
date, location, capacity, creator, createdAt, rsvpOpenAt, image) is
unchanged. -/
theorem cancel_frame_spec (e : Event) (u : Nat) (now : Int) (h : u ∈ e.attendees) :
    cancelRSVP (some e) u now = (.success, some (cancelledEvent e u))
    ∧ (cancelledEvent e u).attendees = e.attendees.filter (fun a => a ≠ u)
    ∧ u ∉ (cancelledEvent e u).attendees
    ∧ (cancelledEvent e u).attendees.Sublist e.attendees
    ∧ (∀ v, v ≠ u → (cancelledEvent e u).attendees.count v = e.attendees.count v)
    ∧ (cancelledEvent e u).title = e.title
    ∧ (cancelledEvent e u).description = e.description
    ∧ (cancelledEvent e u).date = e.date
    ∧ (cancelledEvent e u).location = e.location
    ∧ (cancelledEvent e u).capacity = e.capacity
    ∧ (cancelledEvent e u).creator = e.creator
    ∧ (cancelledEvent e u).createdAt = e.createdAt
    ∧ (cancelledEvent e u).rsvpOpenAt = e.rsvpOpenAt
    ∧ (cancelledEvent e u).image = e.image :=
  ⟨by simp [cancelRSVP, h], rfl, by simp [cancelledEvent],
   List.filter_sublist e.attendees,
   fun v hv => count_filter_ne e.attendees u v hv,
   rfl, rfl, rfl, rfl, rfl, rfl, rfl, rfl, rfl⟩

/-- C10 witness: cancelling the only attendee stores exactly the filtered
document. -/
theorem cancel_frame_spec_witness :
    cancelRSVP (some evRaceJoined) 7 0 = (.success, some (cancelledEvent evRaceJoined 7)) :=
  (cancel_frame_spec evRaceJoined 7 0 (by decide)).1

end EventApp
